import Mathlib

/-!
Verification of the seekers simulation engine (seekers-py).

The Python sources are embedded shallowly:

* seekers/vector.py            -> Seekers.Vec
* seekers/game/world.py        -> Seekers.World (torus geometry, normalization)
* seekers/game/physical.py     -> Seekers.Physical (elastic collision)
* seekers/game/seeker.py       -> Seekers.Seeker (magnet, disable rule, magnetic force)
* seekers/game/goal.py         -> Seekers.Goal (camp_tick scoring counter)
* seekers/game/camp.py         -> Seekers.Camp
* seekers/game/game_logic.py   -> collision pass and scoring pass
* seekers/game/player.py       -> LocalPlayer.process_ai_output / poll_ai
* seekers/game.py + net/server.py -> add_player / Join

Float arithmetic is embedded as exact arithmetic: functions that use only
field and order operations are stated over an arbitrary linear ordered
field (instantiated at the rationals for executable witnesses), functions
that use sqrt or exp are stated over the reals.  Python operations that
can raise (division by zero, dict lookup, float conversion) are embedded
as Option/Except valued functions.  The random number generator is
abstracted as an oracle parameter.
-/

open scoped Classical

set_option maxHeartbeats 1000000

namespace Seekers

/-- Two dimensional vector, from seekers/vector.py (class Vector). -/
structure Vec (α : Type) where
  x : α
  y : α
deriving DecidableEq, Repr

variable {α : Type} [LinearOrderedField α]

instance : Add (Vec α) := ⟨fun a b => ⟨a.x + b.x, a.y + b.y⟩⟩

instance : Sub (Vec α) := ⟨fun a b => ⟨a.x - b.x, a.y - b.y⟩⟩

instance : Neg (Vec α) := ⟨fun a => ⟨-a.x, -a.y⟩⟩

instance : SMul α (Vec α) := ⟨fun c a => ⟨c * a.x, c * a.y⟩⟩

namespace Vec

/-- Vector.dot from seekers/vector.py. -/
def dot (a b : Vec α) : α := a.x * b.x + a.y * b.y

/-- Vector.squared_length from seekers/vector.py. -/
def squared_length (a : Vec α) : α := a.x * a.x + a.y * a.y

theorem add_def (a b : Vec α) : a + b = ⟨a.x + b.x, a.y + b.y⟩ := rfl

theorem sub_def (a b : Vec α) : a - b = ⟨a.x - b.x, a.y - b.y⟩ := rfl

theorem smul_def (c : α) (a : Vec α) : c • a = ⟨c * a.x, c * a.y⟩ := rfl

end Vec

/-- The world, from seekers/game/world.py (class World). -/
structure World (α : Type) where
  width : α
  height : α

/-- The per-axis helper diff1d inside World.torus_difference:
delta = abs(a - b); return b - a if delta < length - delta else a - b. -/
def diff1d (length a b : α) : α :=
  let delta := |a - b|
  if delta < length - delta then b - a else a - b

/-- World.torus_difference from seekers/game/world.py (identical code in
seekers/seekers_types.py). -/
def World.torus_difference (w : World α) (left right : Vec α) : Vec α :=
  ⟨diff1d w.width left.x right.x, diff1d w.height left.y right.y⟩

/-- The per-axis body of World.normalize_position:
pos.x -= math.floor(pos.x / self.width) * self.width. -/
def normalize1d [FloorRing α] (length p : α) : α :=
  p - ⌊p / length⌋ * length

/-- World.normalize_position from seekers/game/world.py (the Python code
mutates the vector in place; the embedding returns the new vector). -/
def World.normalize_position [FloorRing α] (w : World α) (pos : Vec α) : Vec α :=
  ⟨normalize1d w.width pos.x, normalize1d w.height pos.y⟩

section NormalizeLemmas

variable [FloorRing α]

theorem normalize1d_eq_fract (length p : α) (h : length ≠ 0) :
    normalize1d length p = length * Int.fract (p / length) := by
  unfold normalize1d Int.fract
  field_simp
  ring

theorem normalize1d_nonneg (length p : α) (h : 0 < length) :
    0 ≤ normalize1d length p := by
  rw [normalize1d_eq_fract length p (ne_of_gt h)]
  exact mul_nonneg h.le (Int.fract_nonneg _)

theorem normalize1d_lt (length p : α) (h : 0 < length) :
    normalize1d length p < length := by
  rw [normalize1d_eq_fract length p (ne_of_gt h)]
  calc length * Int.fract (p / length) < length * 1 :=
        (mul_lt_mul_left h).mpr (Int.fract_lt_one _)
    _ = length := mul_one length

theorem normalize1d_of_mem (length p : α) (h0 : 0 ≤ p) (h1 : p < length) :
    normalize1d length p = p := by
  have hl : 0 < length := lt_of_le_of_lt h0 h1
  have hfl : ⌊p / length⌋ = 0 := by
    rw [Int.floor_eq_zero_iff]
    constructor
    · exact div_nonneg h0 hl.le
    · rw [div_lt_one hl]
      exact h1
  unfold normalize1d
  rw [hfl]
  simp

theorem normalize1d_idem (length p : α) (h : 0 < length) :
    normalize1d length (normalize1d length p) = normalize1d length p :=
  normalize1d_of_mem length _ (normalize1d_nonneg length p h) (normalize1d_lt length p h)

end NormalizeLemmas

/-- C6: for every position p and every world with positive width and height,
normalize_position(p) lies in the half open box from zero to (width, height),
and normalize_position is idempotent: a second application (equivalently an
application to an already normalized position) changes nothing. -/
theorem normalize_position_mem_and_idem [FloorRing α] (w : World α) (pos : Vec α)
    (hw : 0 < w.width) (hh : 0 < w.height) :
    (0 ≤ (w.normalize_position pos).x ∧ (w.normalize_position pos).x < w.width ∧
      0 ≤ (w.normalize_position pos).y ∧ (w.normalize_position pos).y < w.height) ∧
    w.normalize_position (w.normalize_position pos) = w.normalize_position pos := by
  unfold World.normalize_position
  refine ⟨⟨normalize1d_nonneg _ _ hw, normalize1d_lt _ _ hw,
    normalize1d_nonneg _ _ hh, normalize1d_lt _ _ hh⟩, ?_⟩
  simp only [Vec.mk.injEq]
  exact ⟨normalize1d_idem _ _ hw, normalize1d_idem _ _ hh⟩

/-- Witness for C6 at a concrete rational input: world 2 x 2, position (7/2, -3/2). -/
theorem normalize_position_mem_and_idem_witness :
    (0 < (2 : ℚ) ∧ 0 < (2 : ℚ)) ∧
    ((0 ≤ ((World.mk (2 : ℚ) 2).normalize_position ⟨7/2, -3/2⟩).x ∧
        ((World.mk (2 : ℚ) 2).normalize_position ⟨7/2, -3/2⟩).x < (2 : ℚ) ∧
        0 ≤ ((World.mk (2 : ℚ) 2).normalize_position ⟨7/2, -3/2⟩).y ∧
        ((World.mk (2 : ℚ) 2).normalize_position ⟨7/2, -3/2⟩).y < (2 : ℚ)) ∧
      (World.mk (2 : ℚ) 2).normalize_position
          ((World.mk (2 : ℚ) 2).normalize_position ⟨7/2, -3/2⟩) =
        (World.mk (2 : ℚ) 2).normalize_position ⟨7/2, -3/2⟩) :=
  ⟨⟨by decide, by decide⟩,
    normalize_position_mem_and_idem (World.mk (2 : ℚ) 2) ⟨7/2, -3/2⟩ (by decide) (by decide)⟩

/-- C4 counterexample: in a 100 x 100 world, for the in-bounds points 10 and 90
on the x axis the absolute value of the torus difference is 80, the direct
axis distance, not min(80, 20) = 20: the implementation never wraps the
magnitude, so the claim as stated is false. -/
theorem torus_difference_not_min :
    (0 : ℚ) < 100 ∧ (0 : ℚ) ≤ 10 ∧ (10 : ℚ) < 100 ∧ (0 : ℚ) ≤ 90 ∧ (90 : ℚ) < 100 ∧
    ¬ (|((World.mk (100 : ℚ) 100).torus_difference ⟨10, 0⟩ ⟨90, 0⟩).x| =
        min |(10 : ℚ) - 90| (100 - |(10 : ℚ) - 90|)) := by
  refine ⟨by decide, by decide, by decide, by decide, by decide, ?_⟩
  norm_num [World.torus_difference, diff1d]

theorem diff1d_abs (length a b : α) : |diff1d length a b| = |a - b| := by
  unfold diff1d
  by_cases h : |a - b| < length - |a - b|
  · rw [if_pos h, abs_sub_comm]
  · rw [if_neg h]

theorem diff1d_min_iff (length a b : α) :
    |diff1d length a b| = min |a - b| (length - |a - b|) ↔ 2 * |a - b| ≤ length := by
  rw [diff1d_abs, eq_comm, min_eq_left_iff]
  constructor <;> intro h <;> linarith

/-- C4 corrected: per axis, the absolute value of torus_difference always
equals the direct difference, and it equals the claimed
min(direct, length - direct) exactly when the direct distance is at most
half the axis length; the wraparound only flips the sign (direction) of the
result, never its magnitude. -/
theorem torus_difference_spec (w : World α) (a b : Vec α)
    (hw : 0 < w.width) (hh : 0 < w.height)
    (hax : 0 ≤ a.x) (hax2 : a.x < w.width) (hay : 0 ≤ a.y) (hay2 : a.y < w.height)
    (hbx : 0 ≤ b.x) (hbx2 : b.x < w.width) (hby : 0 ≤ b.y) (hby2 : b.y < w.height) :
    (|(w.torus_difference a b).x| = |a.x - b.x| ∧
      (|(w.torus_difference a b).x| = min |a.x - b.x| (w.width - |a.x - b.x|) ↔
        2 * |a.x - b.x| ≤ w.width)) ∧
    (|(w.torus_difference a b).y| = |a.y - b.y| ∧
      (|(w.torus_difference a b).y| = min |a.y - b.y| (w.height - |a.y - b.y|) ↔
        2 * |a.y - b.y| ≤ w.height)) :=
  ⟨⟨diff1d_abs _ _ _, diff1d_min_iff _ _ _⟩, ⟨diff1d_abs _ _ _, diff1d_min_iff _ _ _⟩⟩

/-- Witness for the corrected C4 statement at the counterexample input. -/
theorem torus_difference_spec_witness :
    (0 : ℚ) < 100 ∧
    ((|((World.mk (100 : ℚ) 100).torus_difference ⟨10, 0⟩ ⟨90, 0⟩).x| = |(10 : ℚ) - 90| ∧
        (|((World.mk (100 : ℚ) 100).torus_difference ⟨10, 0⟩ ⟨90, 0⟩).x| =
            min |(10 : ℚ) - 90| (100 - |(10 : ℚ) - 90|) ↔ 2 * |(10 : ℚ) - 90| ≤ 100)) ∧
      (|((World.mk (100 : ℚ) 100).torus_difference ⟨10, 0⟩ ⟨90, 0⟩).y| = |(0 : ℚ) - 0| ∧
        (|((World.mk (100 : ℚ) 100).torus_difference ⟨10, 0⟩ ⟨90, 0⟩).y| =
            min |(0 : ℚ) - 0| (100 - |(0 : ℚ) - 0|) ↔ 2 * |(0 : ℚ) - 0| ≤ 100))) :=
  ⟨by decide,
    torus_difference_spec (World.mk (100 : ℚ) 100) ⟨10, 0⟩ ⟨90, 0⟩
      (by decide) (by decide) (by decide) (by decide) (by decide) (by decide)
      (by decide) (by decide) (by decide) (by decide)⟩

/-! Real valued vector operations (sqrt based), from seekers/vector.py. -/

/-- Vector.length from seekers/vector.py: math.sqrt(x * x + y * y). -/
noncomputable def Vec.length (v : Vec ℝ) : ℝ := Real.sqrt (v.x * v.x + v.y * v.y)

/-- Vector.normalized from seekers/vector.py: the zero vector when the norm
is zero, otherwise the componentwise division by the norm. -/
noncomputable def Vec.normalized (v : Vec ℝ) : Vec ℝ :=
  if v.length = 0 then ⟨0, 0⟩ else ⟨v.x / v.length, v.y / v.length⟩

/-- Physical entity state, from seekers/game/physical.py (class Physical). -/
structure Physical (α : Type) where
  id : String
  position : Vec α
  velocity : Vec α
  acceleration : Vec α
  mass : α
  radius : α
  friction : α

/-- Physical.collision from seekers/game/physical.py: elastic collision.
The Python code mutates both objects in place; the embedding returns the
pair of updated entities (self first). -/
noncomputable def Physical.collision (self other : Physical ℝ) (w : World ℝ) :
    Physical ℝ × Physical ℝ :=
  let min_dist := self.radius + other.radius
  let d := w.torus_difference self.position other.position
  let dn := d.normalized
  let dv := other.velocity - self.velocity
  let m := 2 / (self.mass + other.mass)
  let dvdn := dv.dot dn
  let v := if dvdn < 0 then
      (self.velocity + (m * other.mass * dvdn) • dn,
        other.velocity - (m * self.mass * dvdn) • dn)
    else (self.velocity, other.velocity)
  let ddn := d.dot dn
  let p := if ddn < min_dist then
      (self.position + (ddn - min_dist) • dn,
        other.position - (ddn - min_dist) • dn)
    else (self.position, other.position)
  ({self with velocity := v.1, position := p.1},
    {other with velocity := v.2, position := p.2})

/-- C7: the velocity exchange step of Physical.collision conserves total
momentum exactly in real arithmetic: the vector sum of mass times velocity
is unchanged by the collision, for all positions and velocities and all
positive masses. -/
theorem collision_momentum (self other : Physical ℝ) (w : World ℝ)
    (h1 : 0 < self.mass) (h2 : 0 < other.mass) :
    (Physical.collision self other w).1.mass • (Physical.collision self other w).1.velocity +
      (Physical.collision self other w).2.mass • (Physical.collision self other w).2.velocity =
    self.mass • self.velocity + other.mass • other.velocity := by
  unfold Physical.collision
  by_cases hv : (other.velocity - self.velocity).dot
      (w.torus_difference self.position other.position).normalized < 0 <;>
    simp only [hv, if_true, if_false, ite_true, ite_false] <;>
    simp [Vec.add_def, Vec.sub_def, Vec.smul_def, Vec.mk.injEq] <;>
    constructor <;> ring

/-- Witness for C7 at concrete masses 1 and 1. -/
theorem collision_momentum_witness :
    0 < (1 : ℝ) ∧
    ((Physical.collision ⟨"a", ⟨0, 0⟩, ⟨1, 0⟩, ⟨0, 0⟩, 1, 1, 0⟩
          ⟨"b", ⟨1, 0⟩, ⟨-1, 0⟩, ⟨0, 0⟩, 1, 1, 0⟩ (World.mk 10 10)).1.mass •
        (Physical.collision ⟨"a", ⟨0, 0⟩, ⟨1, 0⟩, ⟨0, 0⟩, 1, 1, 0⟩
          ⟨"b", ⟨1, 0⟩, ⟨-1, 0⟩, ⟨0, 0⟩, 1, 1, 0⟩ (World.mk 10 10)).1.velocity +
      (Physical.collision ⟨"a", ⟨0, 0⟩, ⟨1, 0⟩, ⟨0, 0⟩, 1, 1, 0⟩
          ⟨"b", ⟨1, 0⟩, ⟨-1, 0⟩, ⟨0, 0⟩, 1, 1, 0⟩ (World.mk 10 10)).2.mass •
        (Physical.collision ⟨"a", ⟨0, 0⟩, ⟨1, 0⟩, ⟨0, 0⟩, 1, 1, 0⟩
          ⟨"b", ⟨1, 0⟩, ⟨-1, 0⟩, ⟨0, 0⟩, 1, 1, 0⟩ (World.mk 10 10)).2.velocity =
      (1 : ℝ) • (⟨1, 0⟩ : Vec ℝ) + (1 : ℝ) • (⟨-1, 0⟩ : Vec ℝ)) :=
  ⟨zero_lt_one,
    collision_momentum ⟨"a", ⟨0, 0⟩, ⟨1, 0⟩, ⟨0, 0⟩, 1, 1, 0⟩
      ⟨"b", ⟨1, 0⟩, ⟨-1, 0⟩, ⟨0, 0⟩, 1, 1, 0⟩ (World.mk 10 10) zero_lt_one zero_lt_one⟩

/-! Seekers: magnet and disable rule, from seekers/game/seeker.py. -/

/-- Magnet state, from seekers/game/seeker.py (class Magnet). -/
structure Magnet (α : Type) where
  strength : α

/-- Magnet.is_on: the strength is not zero. -/
def Magnet.is_on (m : Magnet α) : Prop := m.strength ≠ 0

instance (m : Magnet α) : Decidable m.is_on := by
  unfold Magnet.is_on; infer_instance

/-- Seeker state, from seekers/game/seeker.py (class Seeker). -/
structure Seeker (α : Type) where
  phys : Physical α
  owner : String
  target : Vec α
  disabled_counter : α
  magnet : Magnet α
  disabled_time : α
  magnet_slowdown : α
  base_thrust : α

/-- Seeker.is_disabled: disabled_counter > 0. -/
def Seeker.is_disabled (s : Seeker α) : Prop := 0 < s.disabled_counter

instance (s : Seeker α) : Decidable s.is_disabled := by
  unfold Seeker.is_disabled; infer_instance

/-- Seeker.disable: set disabled_counter to the configured disabled_time. -/
def Seeker.disable (s : Seeker α) : Seeker α :=
  {s with disabled_counter := s.disabled_time}

/-- Seeker.magnet_effective: the magnet is on and the seeker is not disabled. -/
def Seeker.magnet_effective (s : Seeker α) : Prop :=
  s.magnet.is_on ∧ ¬ s.is_disabled

instance (s : Seeker α) : Decidable s.magnet_effective := by
  unfold Seeker.magnet_effective; infer_instance

theorem Seeker.disable_disable (s : Seeker α) : s.disable.disable = s.disable := rfl

/-- Seeker.collision from seekers/game/seeker.py: disable rule on the two
seekers (checks evaluated sequentially, as in Python), then the generic
Physical.collision on the physical parts. -/
noncomputable def Seeker.collision (self other : Seeker ℝ) (w : World ℝ) :
    Seeker ℝ × Seeker ℝ :=
  let so := if ¬ (self.magnet_effective ∨ other.magnet_effective)
    then (self.disable, other.disable) else (self, other)
  let s := if so.1.magnet_effective then so.1.disable else so.1
  let o := if so.2.magnet_effective then so.2.disable else so.2
  let p := Physical.collision s.phys o.phys w
  ({s with phys := p.1}, {o with phys := p.2})

/-- C2: the disable rule of Seeker.collision.  If exactly one of the two has
an effective magnet at the moment of collision, exactly that seeker is
disabled (counter set to its disabled_time) and the other counter is left
unchanged; if neither has an effective magnet both are disabled; and in all
cases the physical parts are those produced by the generic elastic
Physical.collision applied afterwards. -/
theorem seeker_collision_disable_rule (self other : Seeker ℝ) (w : World ℝ) :
    ((Seeker.collision self other w).1.disabled_counter =
      if other.magnet_effective ∧ ¬ self.magnet_effective then self.disabled_counter
      else self.disabled_time) ∧
    ((Seeker.collision self other w).2.disabled_counter =
      if self.magnet_effective ∧ ¬ other.magnet_effective then other.disabled_counter
      else other.disabled_time) ∧
    (Seeker.collision self other w).1.phys =
      (Physical.collision self.phys other.phys w).1 ∧
    (Seeker.collision self other w).2.phys =
      (Physical.collision self.phys other.phys w).2 := by
  by_cases h1 : self.magnet_effective <;> by_cases h2 : other.magnet_effective <;>
    simp [Seeker.collision, Seeker.disable, h1, h2, ite_self]

/-! Magnetic force, from seekers/game/seeker.py (Seeker.magnetic_force). -/

/-- The inner helper bump inside Seeker.magnetic_force:
math.exp(1 / (difference ** 2 - 1)) if difference < 1 else 0. -/
noncomputable def bump (difference : ℝ) : ℝ :=
  if difference < 1 then Real.exp (1 / (difference ^ 2 - 1)) else 0

/-- World.diameter: the length of the geometry vector (width, height). -/
noncomputable def World.diameter (w : World ℝ) : ℝ := (Vec.mk w.width w.height).length

/-- Componentwise division of a vector by a float, as Python evaluates it:
raises ZeroDivisionError (embedded as none) when the divisor is zero. -/
noncomputable def Vec.divOpt (v : Vec ℝ) (c : ℝ) : Option (Vec ℝ) :=
  if c = 0 then none else some ⟨v.x / c, v.y / c⟩

/-- Seeker.magnetic_force from seekers/game/seeker.py.  The direction is the
torus difference divided by its length, guarded in the source by the check
torus_diff_len != 0 (the unguarded legacy copy in seekers/seekers_types.py
would raise ZeroDivisionError here); a disabled seeker contributes the zero
vector, otherwise the force is minus the direction scaled by
strength * bump(10 * normalized distance). -/
noncomputable def Seeker.magnetic_force (self : Seeker ℝ) (w : World ℝ) (pos : Vec ℝ) :
    Option (Vec ℝ) :=
  let torus_diff := w.torus_difference self.phys.position pos
  let torus_diff_len := torus_diff.length
  let r := torus_diff_len / w.diameter
  let direction : Option (Vec ℝ) :=
    if torus_diff_len ≠ 0 then torus_diff.divOpt torus_diff_len else some ⟨0, 0⟩
  direction.map fun dir =>
    if self.is_disabled then ⟨0, 0⟩
    else (-(self.magnet.strength * bump (r * 10))) • dir

/-- C10: Seeker.magnetic_force is total: it never performs a division by
zero (the result is always some vector), and in the edge case where the
toroidal difference between the seeker position and the query position has
length zero the result is the zero vector. -/
theorem magnetic_force_total (self : Seeker ℝ) (w : World ℝ) (pos : Vec ℝ) :
    (Seeker.magnetic_force self w pos).isSome = true ∧
    ((w.torus_difference self.phys.position pos).length = 0 →
      Seeker.magnetic_force self w pos = some ⟨0, 0⟩) := by
  unfold Seeker.magnetic_force
  by_cases hl : (w.torus_difference self.phys.position pos).length = 0
  · constructor
    · simp [hl]
    · intro _
      simp only [hl, ne_eq, not_true_eq_false, if_false, ite_false, Option.map_some]
      simp [Vec.smul_def, ite_self]
  · constructor
    · simp [hl, Vec.divOpt]
    · intro h
      exact absurd h hl

/-- Witness for C10: a seeker at the origin queried at its own position in a
1 x 1 world; the toroidal difference has length zero and the force is the
zero vector. -/
theorem magnetic_force_total_witness :
    ((World.mk (1 : ℝ) 1).torus_difference
        (⟨⟨"s", ⟨0, 0⟩, ⟨0, 0⟩, ⟨0, 0⟩, 1, 1, 0⟩, "p", ⟨0, 0⟩, 0, ⟨1⟩, 10, 1, 1⟩ :
          Seeker ℝ).phys.position ⟨0, 0⟩).length = 0 ∧
    ((⟨⟨"s", ⟨0, 0⟩, ⟨0, 0⟩, ⟨0, 0⟩, 1, 1, 0⟩, "p", ⟨0, 0⟩, 0, ⟨1⟩, 10, 1, 1⟩ :
        Seeker ℝ).magnetic_force (World.mk (1 : ℝ) 1) ⟨0, 0⟩).isSome = true ∧
    (⟨⟨"s", ⟨0, 0⟩, ⟨0, 0⟩, ⟨0, 0⟩, 1, 1, 0⟩, "p", ⟨0, 0⟩, 0, ⟨1⟩, 10, 1, 1⟩ :
        Seeker ℝ).magnetic_force (World.mk (1 : ℝ) 1) ⟨0, 0⟩ = some ⟨0, 0⟩ := by
  have hlen : ((World.mk (1 : ℝ) 1).torus_difference
      (⟨⟨"s", ⟨0, 0⟩, ⟨0, 0⟩, ⟨0, 0⟩, 1, 1, 0⟩, "p", ⟨0, 0⟩, 0, ⟨1⟩, 10, 1, 1⟩ :
        Seeker ℝ).phys.position ⟨0, 0⟩).length = 0 := by
    simp [World.torus_difference, diff1d, Vec.length, ite_self]
  have h := magnetic_force_total
    (⟨⟨"s", ⟨0, 0⟩, ⟨0, 0⟩, ⟨0, 0⟩, 1, 1, 0⟩, "p", ⟨0, 0⟩, 0, ⟨1⟩, 10, 1, 1⟩ : Seeker ℝ)
    (World.mk (1 : ℝ) 1) ⟨0, 0⟩
  exact ⟨hlen, h.1, h.2 hlen⟩

/-! The legacy copies in seekers/seekers_types.py of Seeker.collision and
Seeker.magnetic_force differ from the seekers/game package: the collision
checks run in the opposite order and the magnetic force direction is not
guarded against a zero length difference.  The two theorems below record
the resulting behavioural differences. -/

/-- Seeker.collision as in the legacy seekers/seekers_types.py: first
disable the seekers with an effective magnet, then (re-evaluating
magnet_effective on the mutated states) disable both if neither is
effective any more. -/
noncomputable def Seeker.collision_types (self other : Seeker ℝ) (w : World ℝ) :
    Seeker ℝ × Seeker ℝ :=
  let s := if self.magnet_effective then self.disable else self
  let o := if other.magnet_effective then other.disable else other
  let so := if ¬ (s.magnet_effective ∨ o.magnet_effective)
    then (s.disable, o.disable) else (s, o)
  let p := Physical.collision so.1.phys so.2.phys w
  ({so.1 with phys := p.1}, {so.2 with phys := p.2})

/-- In the legacy order, when exactly one seeker has an effective magnet
(and the configured disabled time is positive), disabling that seeker first
makes the neither-effective re-check true, so the other seeker is disabled
as well: its counter does not stay unchanged. -/
theorem seeker_collision_types_both_disabled (self other : Seeker ℝ) (w : World ℝ)
    (h1 : self.magnet_effective) (h2 : ¬ other.magnet_effective)
    (hdt : 0 < self.disabled_time) :
    (Seeker.collision_types self other w).1.disabled_counter = self.disabled_time ∧
    (Seeker.collision_types self other w).2.disabled_counter = other.disabled_time := by
  have hnd : ¬ (self.disable).magnet_effective := by
    intro h
    exact h.2 hdt
  have hcond : ¬ ((self.disable).magnet_effective ∨ other.magnet_effective) := by
    rintro (h | h)
    · exact hnd h
    · exact h2 h
  simp only [Seeker.collision_types, if_pos h1, if_neg h2, if_pos hcond]
  simp [Seeker.disable]

/-- Witness for the legacy both-disabled fact at a concrete pair: the left
seeker has its magnet on, the right one does not, and both end up with
their counters set to the disable time. -/
theorem seeker_collision_types_both_disabled_witness :
    (⟨⟨"a", ⟨0, 0⟩, ⟨0, 0⟩, ⟨0, 0⟩, 1, 1, 0⟩, "p", ⟨0, 0⟩, 0, ⟨1⟩, 10, 1, 1⟩ :
      Seeker ℝ).magnet_effective ∧
    ¬ (⟨⟨"b", ⟨1, 0⟩, ⟨0, 0⟩, ⟨0, 0⟩, 1, 1, 0⟩, "q", ⟨0, 0⟩, 0, ⟨0⟩, 10, 1, 1⟩ :
      Seeker ℝ).magnet_effective ∧
    (Seeker.collision_types
        (⟨⟨"a", ⟨0, 0⟩, ⟨0, 0⟩, ⟨0, 0⟩, 1, 1, 0⟩, "p", ⟨0, 0⟩, 0, ⟨1⟩, 10, 1, 1⟩ : Seeker ℝ)
        (⟨⟨"b", ⟨1, 0⟩, ⟨0, 0⟩, ⟨0, 0⟩, 1, 1, 0⟩, "q", ⟨0, 0⟩, 0, ⟨0⟩, 10, 1, 1⟩ : Seeker ℝ)
        (World.mk 100 100)).2.disabled_counter = 10 := by
  have h1 : (⟨⟨"a", ⟨0, 0⟩, ⟨0, 0⟩, ⟨0, 0⟩, 1, 1, 0⟩, "p", ⟨0, 0⟩, 0, ⟨1⟩, 10, 1, 1⟩ :
      Seeker ℝ).magnet_effective := by
    constructor
    · exact one_ne_zero
    · simp [Seeker.is_disabled]
  have h2 : ¬ (⟨⟨"b", ⟨1, 0⟩, ⟨0, 0⟩, ⟨0, 0⟩, 1, 1, 0⟩, "q", ⟨0, 0⟩, 0, ⟨0⟩, 10, 1, 1⟩ :
      Seeker ℝ).magnet_effective := by
    intro h
    exact h.1 rfl
  refine ⟨h1, h2, ?_⟩
  have := seeker_collision_types_both_disabled
    (⟨⟨"a", ⟨0, 0⟩, ⟨0, 0⟩, ⟨0, 0⟩, 1, 1, 0⟩, "p", ⟨0, 0⟩, 0, ⟨1⟩, 10, 1, 1⟩ : Seeker ℝ)
    (⟨⟨"b", ⟨1, 0⟩, ⟨0, 0⟩, ⟨0, 0⟩, 1, 1, 0⟩, "q", ⟨0, 0⟩, 0, ⟨0⟩, 10, 1, 1⟩ : Seeker ℝ)
    (World.mk 100 100) h1 h2 (by norm_num)
  exact this.2

/-- Seeker.magnetic_force as in the legacy seekers/seekers_types.py: the
direction is computed by an unguarded division by the difference length
(before the disabled check), so Python raises ZeroDivisionError (none) for
coincident positions. -/
noncomputable def Seeker.magnetic_force_types (self : Seeker ℝ) (w : World ℝ)
    (pos : Vec ℝ) : Option (Vec ℝ) :=
  let torus_diff := w.torus_difference self.phys.position pos
  let torus_diff_len := torus_diff.length
  let r := torus_diff_len / w.diameter
  (torus_diff.divOpt torus_diff_len).map fun direction =>
    if self.is_disabled then ⟨0, 0⟩
    else ((-(self.magnet.strength * bump (r * 10))) • direction) -- times base thrust omitted

theorem magnetic_force_types_coincident_raises (self : Seeker ℝ) (w : World ℝ)
    (pos : Vec ℝ) (hl : (w.torus_difference self.phys.position pos).length = 0) :
    Seeker.magnetic_force_types self w pos = none := by
  simp [Seeker.magnetic_force_types, Vec.divOpt, hl]

/-- Witness for the legacy ZeroDivisionError fact: the coincident query in a
1 x 1 world. -/
theorem magnetic_force_types_coincident_raises_witness :
    ((World.mk (1 : ℝ) 1).torus_difference
        (⟨⟨"s", ⟨0, 0⟩, ⟨0, 0⟩, ⟨0, 0⟩, 1, 1, 0⟩, "p", ⟨0, 0⟩, 0, ⟨1⟩, 10, 1, 1⟩ :
          Seeker ℝ).phys.position ⟨0, 0⟩).length = 0 ∧
    Seeker.magnetic_force_types
        (⟨⟨"s", ⟨0, 0⟩, ⟨0, 0⟩, ⟨0, 0⟩, 1, 1, 0⟩, "p", ⟨0, 0⟩, 0, ⟨1⟩, 10, 1, 1⟩ : Seeker ℝ)
        (World.mk (1 : ℝ) 1) ⟨0, 0⟩ = none := by
  have hlen : ((World.mk (1 : ℝ) 1).torus_difference
      (⟨⟨"s", ⟨0, 0⟩, ⟨0, 0⟩, ⟨0, 0⟩, 1, 1, 0⟩, "p", ⟨0, 0⟩, 0, ⟨1⟩, 10, 1, 1⟩ :
        Seeker ℝ).phys.position ⟨0, 0⟩).length = 0 := by
    simp [World.torus_difference, diff1d, Vec.length, ite_self]
  exact ⟨hlen, magnetic_force_types_coincident_raises _ _ _ hlen⟩

/-! Positional separation step of Physical.collision (claim C8). -/

theorem Vec.dot_sub_left (a b c : Vec α) : (a - b).dot c = a.dot c - b.dot c := by
  simp [Vec.dot, Vec.sub_def]; ring

theorem Vec.dot_add_left (a b c : Vec α) : (a + b).dot c = a.dot c + b.dot c := by
  simp [Vec.dot, Vec.add_def]; ring

theorem Vec.smul_dot (t : α) (a b : Vec α) : (t • a).dot b = t * a.dot b := by
  simp [Vec.dot, Vec.smul_def]; ring

theorem Vec.dot_normalized_self (v : Vec ℝ) (h : v.length ≠ 0) :
    v.normalized.dot v.normalized = 1 := by
  have hs0 : 0 ≤ v.x * v.x + v.y * v.y := by nlinarith [sq_nonneg v.x, sq_nonneg v.y]
  have hss : v.length * v.length = v.x * v.x + v.y * v.y := Real.mul_self_sqrt hs0
  unfold Vec.normalized
  rw [if_neg h]
  simp only [Vec.dot]
  field_simp
  linarith [hss]

theorem collision_position_eq (self other : Physical ℝ) (w : World ℝ)
    (hlt : (w.torus_difference self.position other.position).dot
        (w.torus_difference self.position other.position).normalized <
      self.radius + other.radius) :
    (Physical.collision self other w).1.position =
      self.position +
        ((w.torus_difference self.position other.position).dot
            (w.torus_difference self.position other.position).normalized -
          (self.radius + other.radius)) •
          (w.torus_difference self.position other.position).normalized ∧
    (Physical.collision self other w).2.position =
      other.position -
        ((w.torus_difference self.position other.position).dot
            (w.torus_difference self.position other.position).normalized -
          (self.radius + other.radius)) •
          (w.torus_difference self.position other.position).normalized := by
  unfold Physical.collision
  simp [hlt]

/-- C8 corrected: when the entities overlap along the collision normal
(ddn below the sum of radii), the separation step displaces each entity by
the full overlap (not half of it), so in the unwrapped case the distance
along the normal after the step is 2 * (r1 + r2) - ddn: it strictly
overshoots the sum of the radii instead of equalling it. -/
theorem collision_separation (self other : Physical ℝ) (w : World ℝ)
    (hdir : w.torus_difference self.position other.position =
      other.position - self.position)
    (hlen : (w.torus_difference self.position other.position).length ≠ 0)
    (hlt : (w.torus_difference self.position other.position).dot
        (w.torus_difference self.position other.position).normalized <
      self.radius + other.radius) :
    ((Physical.collision self other w).2.position -
        (Physical.collision self other w).1.position).dot
      (w.torus_difference self.position other.position).normalized =
      2 * (self.radius + other.radius) -
        (w.torus_difference self.position other.position).dot
          (w.torus_difference self.position other.position).normalized ∧
    self.radius + other.radius <
      ((Physical.collision self other w).2.position -
          (Physical.collision self other w).1.position).dot
        (w.torus_difference self.position other.position).normalized := by
  obtain ⟨h1, h2⟩ := collision_position_eq self other w hlt
  have hdd := Vec.dot_normalized_self _ hlen
  have key : ((Physical.collision self other w).2.position -
      (Physical.collision self other w).1.position).dot
        (w.torus_difference self.position other.position).normalized =
      2 * (self.radius + other.radius) -
        (w.torus_difference self.position other.position).dot
          (w.torus_difference self.position other.position).normalized := by
    rw [h1, h2]
    have hsub : other.position -
        ((w.torus_difference self.position other.position).dot
            (w.torus_difference self.position other.position).normalized -
          (self.radius + other.radius)) •
          (w.torus_difference self.position other.position).normalized -
        (self.position +
          ((w.torus_difference self.position other.position).dot
              (w.torus_difference self.position other.position).normalized -
            (self.radius + other.radius)) •
            (w.torus_difference self.position other.position).normalized) =
        (other.position - self.position) -
          (2 * ((w.torus_difference self.position other.position).dot
              (w.torus_difference self.position other.position).normalized -
            (self.radius + other.radius))) •
            (w.torus_difference self.position other.position).normalized := by
      simp [Vec.sub_def, Vec.add_def, Vec.smul_def, Vec.mk.injEq]
      constructor <;> ring
    rw [hsub, Vec.dot_sub_left, Vec.smul_dot, hdd, ← hdir]
    ring
  exact ⟨key, by rw [key]; linarith⟩

theorem c8_input_dir :
    (World.mk (1000 : ℝ) 1000).torus_difference
        ((⟨"a", ⟨100, 100⟩, ⟨0, 0⟩, ⟨0, 0⟩, 1, 3/2, 0⟩ : Physical ℝ)).position
        ((⟨"b", ⟨101, 100⟩, ⟨0, 0⟩, ⟨0, 0⟩, 1, 3/2, 0⟩ : Physical ℝ)).position =
      (⟨"b", ⟨101, 100⟩, ⟨0, 0⟩, ⟨0, 0⟩, 1, 3/2, 0⟩ : Physical ℝ).position -
        (⟨"a", ⟨100, 100⟩, ⟨0, 0⟩, ⟨0, 0⟩, 1, 3/2, 0⟩ : Physical ℝ).position := by
  norm_num [World.torus_difference, diff1d, Vec.sub_def]

theorem c8_input_len :
    ((World.mk (1000 : ℝ) 1000).torus_difference
        ((⟨"a", ⟨100, 100⟩, ⟨0, 0⟩, ⟨0, 0⟩, 1, 3/2, 0⟩ : Physical ℝ)).position
        ((⟨"b", ⟨101, 100⟩, ⟨0, 0⟩, ⟨0, 0⟩, 1, 3/2, 0⟩ : Physical ℝ)).position).length ≠ 0 := by
  norm_num [World.torus_difference, diff1d, Vec.length, Real.sqrt_one]

theorem c8_input_lt :
    ((World.mk (1000 : ℝ) 1000).torus_difference
          ((⟨"a", ⟨100, 100⟩, ⟨0, 0⟩, ⟨0, 0⟩, 1, 3/2, 0⟩ : Physical ℝ)).position
          ((⟨"b", ⟨101, 100⟩, ⟨0, 0⟩, ⟨0, 0⟩, 1, 3/2, 0⟩ : Physical ℝ)).position).dot
        ((World.mk (1000 : ℝ) 1000).torus_difference
          ((⟨"a", ⟨100, 100⟩, ⟨0, 0⟩, ⟨0, 0⟩, 1, 3/2, 0⟩ : Physical ℝ)).position
          ((⟨"b", ⟨101, 100⟩, ⟨0, 0⟩, ⟨0, 0⟩, 1, 3/2, 0⟩ : Physical ℝ)).position).normalized <
      (⟨"a", ⟨100, 100⟩, ⟨0, 0⟩, ⟨0, 0⟩, 1, 3/2, 0⟩ : Physical ℝ).radius +
        (⟨"b", ⟨101, 100⟩, ⟨0, 0⟩, ⟨0, 0⟩, 1, 3/2, 0⟩ : Physical ℝ).radius := by
  norm_num [World.torus_difference, diff1d, Vec.dot, Vec.normalized, Vec.length, Real.sqrt_one]

/-- Witness for the corrected C8 statement at the concrete overlapping pair. -/
theorem collision_separation_witness :
    ((World.mk (1000 : ℝ) 1000).torus_difference
          ((⟨"a", ⟨100, 100⟩, ⟨0, 0⟩, ⟨0, 0⟩, 1, 3/2, 0⟩ : Physical ℝ)).position
          ((⟨"b", ⟨101, 100⟩, ⟨0, 0⟩, ⟨0, 0⟩, 1, 3/2, 0⟩ : Physical ℝ)).position).dot
        ((World.mk (1000 : ℝ) 1000).torus_difference
          ((⟨"a", ⟨100, 100⟩, ⟨0, 0⟩, ⟨0, 0⟩, 1, 3/2, 0⟩ : Physical ℝ)).position
          ((⟨"b", ⟨101, 100⟩, ⟨0, 0⟩, ⟨0, 0⟩, 1, 3/2, 0⟩ : Physical ℝ)).position).normalized <
      (3/2 : ℝ) + 3/2 ∧
    (3/2 : ℝ) + 3/2 <
      ((Physical.collision (⟨"a", ⟨100, 100⟩, ⟨0, 0⟩, ⟨0, 0⟩, 1, 3/2, 0⟩ : Physical ℝ)
            (⟨"b", ⟨101, 100⟩, ⟨0, 0⟩, ⟨0, 0⟩, 1, 3/2, 0⟩ : Physical ℝ)
            (World.mk 1000 1000)).2.position -
          (Physical.collision (⟨"a", ⟨100, 100⟩, ⟨0, 0⟩, ⟨0, 0⟩, 1, 3/2, 0⟩ : Physical ℝ)
            (⟨"b", ⟨101, 100⟩, ⟨0, 0⟩, ⟨0, 0⟩, 1, 3/2, 0⟩ : Physical ℝ)
            (World.mk 1000 1000)).1.position).dot
        ((World.mk (1000 : ℝ) 1000).torus_difference
          ((⟨"a", ⟨100, 100⟩, ⟨0, 0⟩, ⟨0, 0⟩, 1, 3/2, 0⟩ : Physical ℝ)).position
          ((⟨"b", ⟨101, 100⟩, ⟨0, 0⟩, ⟨0, 0⟩, 1, 3/2, 0⟩ : Physical ℝ)).position).normalized :=
  ⟨c8_input_lt,
    (collision_separation (⟨"a", ⟨100, 100⟩, ⟨0, 0⟩, ⟨0, 0⟩, 1, 3/2, 0⟩ : Physical ℝ)
      (⟨"b", ⟨101, 100⟩, ⟨0, 0⟩, ⟨0, 0⟩, 1, 3/2, 0⟩ : Physical ℝ) (World.mk 1000 1000)
      c8_input_dir c8_input_len c8_input_lt).2⟩

/-- C8 counterexample: for the concrete overlapping pair at (100,100) and
(101,100) with radii 3/2 in a 1000 x 1000 world, the toroidal distance
between the two positions after Physical.collision is 5, not the sum of the
radii 3: the separation step overshoots, refuting the claim as stated. -/
theorem collision_separation_counterexample :
    ¬ (((World.mk (1000 : ℝ) 1000).torus_difference
          (Physical.collision (⟨"a", ⟨100, 100⟩, ⟨0, 0⟩, ⟨0, 0⟩, 1, 3/2, 0⟩ : Physical ℝ)
            (⟨"b", ⟨101, 100⟩, ⟨0, 0⟩, ⟨0, 0⟩, 1, 3/2, 0⟩ : Physical ℝ)
            (World.mk 1000 1000)).1.position
          (Physical.collision (⟨"a", ⟨100, 100⟩, ⟨0, 0⟩, ⟨0, 0⟩, 1, 3/2, 0⟩ : Physical ℝ)
            (⟨"b", ⟨101, 100⟩, ⟨0, 0⟩, ⟨0, 0⟩, 1, 3/2, 0⟩ : Physical ℝ)
            (World.mk 1000 1000)).2.position).length = (3/2 : ℝ) + 3/2) := by
  have hcol : Physical.collision (⟨"a", ⟨100, 100⟩, ⟨0, 0⟩, ⟨0, 0⟩, 1, 3/2, 0⟩ : Physical ℝ)
      (⟨"b", ⟨101, 100⟩, ⟨0, 0⟩, ⟨0, 0⟩, 1, 3/2, 0⟩ : Physical ℝ) (World.mk 1000 1000) =
      ((⟨"a", ⟨98, 100⟩, ⟨0, 0⟩, ⟨0, 0⟩, 1, 3/2, 0⟩ : Physical ℝ),
        (⟨"b", ⟨103, 100⟩, ⟨0, 0⟩, ⟨0, 0⟩, 1, 3/2, 0⟩ : Physical ℝ)) := by
    unfold Physical.collision
    norm_num [World.torus_difference, diff1d, Vec.normalized, Vec.length, Vec.dot,
      Vec.sub_def, Vec.add_def, Vec.smul_def, Real.sqrt_one, Vec.mk.injEq]
  rw [hcol]
  have h25 : Real.sqrt 25 = 5 := by
    rw [show (25 : ℝ) = 5 ^ 2 by norm_num, Real.sqrt_sq (by norm_num : (0 : ℝ) ≤ 5)]
  norm_num [World.torus_difference, diff1d, Vec.length, h25]

/-! Scoring state machine, from seekers/game/goal.py, camp.py and
game_logic.py (claim C1). -/

/-- Camp, from seekers/game/camp.py. -/
structure Camp (α : Type) where
  id : String
  owner : String
  position : Vec α
  width : α
  height : α

/-- Camp.contains: delta = position - pos;
2 * abs(delta.x) < width and 2 * abs(delta.y) < height. -/
def Camp.contains (c : Camp α) (pos : Vec α) : Prop :=
  2 * |(c.position - pos).x| < c.width ∧ 2 * |(c.position - pos).y| < c.height

instance (c : Camp α) (pos : Vec α) : Decidable (c.contains pos) := by
  unfold Camp.contains; infer_instance

/-- Goal entity, from seekers/game/goal.py (class Goal); the owner is the
id of the owning player or none. -/
structure Goal (α : Type) where
  phys : Physical α
  owner : Option String
  time_owned : ℕ
  scoring_time : α
  base_thrust : α

/-- Goal.camp_tick from seekers/game/goal.py: if the camp contains the goal
position, either increment time_owned (same owner) or reset the counter to
zero and switch the owner; return (updated goal, time_owned >= scoring_time
evaluated on the updated goal). -/
def Goal.camp_tick (g : Goal α) (c : Camp α) : Goal α × Bool :=
  let g' := if c.contains g.phys.position then
      (if g.owner = some c.owner then {g with time_owned := g.time_owned + 1}
        else {g with time_owned := 0, owner := some c.owner})
    else g
  (g', decide (g'.scoring_time ≤ (g'.time_owned : α)))

/-- goal_scored from seekers/game/game_logic.py: increment the score of the
scoring player, teleport the goal to a fresh (random oracle) position, and
reset owner and time_owned.  The score animation is cosmetic and omitted. -/
def goal_scored (scores : String → ℕ) (pname : String) (g : Goal α) (fresh : Vec α) :
    (String → ℕ) × Goal α :=
  (Function.update scores pname (scores pname + 1),
    {g with phys := {g.phys with position := fresh}, owner := none, time_owned := 0})

/-- The inner loop of the scoring pass in seekers/game/game_logic.py tick:
for camp_ in camps: if g.camp_tick(camp_): goal_scored(camp_.owner, ...);
break.  The random respawn position is the oracle argument fresh. -/
def camps_loop (g : Goal α) (camps : List (Camp α)) (scores : String → ℕ) (fresh : Vec α) :
    Goal α × (String → ℕ) :=
  match camps with
  | [] => (g, scores)
  | c :: rest =>
    let r := g.camp_tick c
    if r.2 then
      let gs := goal_scored scores c.owner r.1 fresh
      (gs.2, gs.1)
    else camps_loop r.1 rest scores fresh

/-- The scoring pass of tick: process every goal in order against the camps,
threading the score map; the oracle fresh gives the respawn position drawn
for the goal at each list position. -/
def scoring_pass (goals : List (Goal α)) (camps : List (Camp α)) (scores : String → ℕ)
    (fresh : ℕ → Vec α) : List (Goal α) × (String → ℕ) :=
  match goals with
  | [] => ([], scores)
  | g :: rest =>
    let r := camps_loop g camps scores (fresh 0)
    let r2 := scoring_pass rest camps r.2 (fun k => fresh (k + 1))
    (r.1 :: r2.1, r2.2)

/-- Exactly the scoring related state of a goal: an arbitrary physics update
between scoring passes (move touches only the physical fields) preserves it. -/
def ScoringShape (g g' : Goal α) : Prop :=
  g'.owner = g.owner ∧ g'.time_owned = g.time_owned ∧ g'.scoring_time = g.scoring_time

/-- States reachable by repeated ticks: initially every goal has
time_owned = 0 (and a configured scoring time of at least one tick); each
tick first updates the physics of the goals arbitrarily (ScoringShape is
preserved) and then runs the scoring pass with arbitrary camps and an
arbitrary respawn oracle. -/
inductive Reachable : List (Goal α) → (String → ℕ) → Prop where
  | init (goals : List (Goal α)) (scores : String → ℕ)
      (h0 : ∀ g ∈ goals, g.time_owned = 0)
      (hst : ∀ g ∈ goals, (1 : α) ≤ g.scoring_time) : Reachable goals scores
  | step (goals goals' : List (Goal α)) (scores : String → ℕ)
      (camps : List (Camp α)) (fresh : ℕ → Vec α)
      (h : Reachable goals scores)
      (hmove : List.Forall₂ ScoringShape goals goals') :
      Reachable (scoring_pass goals' camps scores fresh).1
        (scoring_pass goals' camps scores fresh).2

theorem camps_loop_spec (g : Goal α) (camps : List (Camp α)) (scores : String → ℕ)
    (fresh : Vec α) (hst : (1 : α) ≤ g.scoring_time)
    (hinv : (g.time_owned : α) < g.scoring_time) :
    (camps_loop g camps scores fresh).1.scoring_time = g.scoring_time ∧
    (((camps_loop g camps scores fresh).1.time_owned : α) < g.scoring_time) ∧
    (((camps_loop g camps scores fresh).2 = scores ∧
        (camps_loop g camps scores fresh).1.phys.position = g.phys.position) ∨
      (∃ c ∈ camps, (camps_loop g camps scores fresh).2 =
          Function.update scores c.owner (scores c.owner + 1) ∧
        (camps_loop g camps scores fresh).1 =
          ({g with phys := {g.phys with position := fresh}, owner := none, time_owned := 0} : Goal α))) := by
  induction camps generalizing g scores with
  | nil => exact ⟨rfl, hinv, Or.inl ⟨rfl, rfl⟩⟩
  | cons c rest ih =>
    have hzero : (0 : α) < g.scoring_time := lt_of_lt_of_le zero_lt_one hst
    by_cases hcont : c.contains g.phys.position
    · by_cases howner : g.owner = some c.owner
      · have htick1 : (g.camp_tick c).1 = ({g with time_owned := g.time_owned + 1} : Goal α) := by
          simp [Goal.camp_tick, hcont, howner]
        by_cases hcap : g.scoring_time ≤ ((g.time_owned + 1 : ℕ) : α)
        · have htick2 : (g.camp_tick c).2 = true := by
            simp only [Goal.camp_tick, if_pos hcont, if_pos howner, decide_eq_true_eq]
            exact hcap
          have hloop : camps_loop g (c :: rest) scores fresh =
              ({g with phys := {g.phys with position := fresh}, owner := none, time_owned := 0},
                Function.update scores c.owner (scores c.owner + 1)) := by
            simp [camps_loop, htick1, htick2, goal_scored]
          rw [hloop]
          refine ⟨rfl, ?_, Or.inr ⟨c, List.mem_cons_self c rest, rfl, rfl⟩⟩
          simpa using hzero
        · have htick2 : (g.camp_tick c).2 = false := by
            simp only [Goal.camp_tick, if_pos hcont, if_pos howner, decide_eq_false_iff_not]
            exact hcap
          have hloop : camps_loop g (c :: rest) scores fresh =
              camps_loop {g with time_owned := g.time_owned + 1} rest scores fresh := by
            simp [camps_loop, htick1, htick2]
          rw [hloop]
          have hinv' : (({g with time_owned := g.time_owned + 1} : Goal α).time_owned : α) <
              ({g with time_owned := g.time_owned + 1} : Goal α).scoring_time := by
            simpa using not_le.mp hcap
          obtain ⟨h1, h2, h3⟩ := ih {g with time_owned := g.time_owned + 1} scores hst hinv'
          refine ⟨h1, h2, ?_⟩
          rcases h3 with ⟨hs, hp⟩ | ⟨c', hc', hs, hg⟩
          · exact Or.inl ⟨hs, hp⟩
          · exact Or.inr ⟨c', List.mem_cons_of_mem c hc', hs, hg⟩
      · have htick1 : (g.camp_tick c).1 =
            ({g with time_owned := 0, owner := some c.owner} : Goal α) := by
          simp [Goal.camp_tick, hcont, howner]
        have htick2 : (g.camp_tick c).2 = false := by
          simp only [Goal.camp_tick, if_pos hcont, if_neg howner, decide_eq_false_iff_not]
          simpa using not_le.mpr hzero
        have hloop : camps_loop g (c :: rest) scores fresh =
            camps_loop {g with time_owned := 0, owner := some c.owner} rest scores fresh := by
          simp [camps_loop, htick1, htick2]
        rw [hloop]
        have hinv' : (({g with time_owned := 0, owner := some c.owner} : Goal α).time_owned : α) <
            ({g with time_owned := 0, owner := some c.owner} : Goal α).scoring_time := by
          simpa using hzero
        obtain ⟨h1, h2, h3⟩ := ih {g with time_owned := 0, owner := some c.owner} scores hst hinv'
        refine ⟨h1, h2, ?_⟩
        rcases h3 with ⟨hs, hp⟩ | ⟨c', hc', hs, hg⟩
        · exact Or.inl ⟨hs, hp⟩
        · exact Or.inr ⟨c', List.mem_cons_of_mem c hc', hs, hg⟩
    · have htick1 : (g.camp_tick c).1 = g := by
        simp [Goal.camp_tick, hcont]
      have htick2 : (g.camp_tick c).2 = false := by
        simp only [Goal.camp_tick, if_neg hcont, decide_eq_false_iff_not]
        exact not_le.mpr hinv
      have hloop : camps_loop g (c :: rest) scores fresh =
          camps_loop g rest scores fresh := by
        simp [camps_loop, htick1, htick2]
      rw [hloop]
      obtain ⟨h1, h2, h3⟩ := ih g scores hst hinv
      refine ⟨h1, h2, ?_⟩
      rcases h3 with ⟨hs, hp⟩ | ⟨c', hc', hs, hg⟩
      · exact Or.inl ⟨hs, hp⟩
      · exact Or.inr ⟨c', List.mem_cons_of_mem c hc', hs, hg⟩

theorem scoring_pass_inv (goals : List (Goal α)) (camps : List (Camp α))
    (scores : String → ℕ) (fresh : ℕ → Vec α)
    (h : ∀ g ∈ goals, (1 : α) ≤ g.scoring_time ∧ (g.time_owned : α) < g.scoring_time) :
    ∀ g ∈ (scoring_pass goals camps scores fresh).1,
      (1 : α) ≤ g.scoring_time ∧ (g.time_owned : α) < g.scoring_time := by
  induction goals generalizing scores fresh with
  | nil => simp [scoring_pass]
  | cons g rest ih =>
    intro g' hg'
    have hhead := h g (List.mem_cons_self g rest)
    obtain ⟨h1, h2, _⟩ := camps_loop_spec g camps scores (fresh 0) hhead.1 hhead.2
    simp only [scoring_pass, List.mem_cons] at hg'
    rcases hg' with rfl | hmem
    · exact ⟨h1 ▸ hhead.1, h1 ▸ h2⟩
    · exact ih (camps_loop g camps scores (fresh 0)).2 (fun k => fresh (k + 1))
        (fun gg hgg => h gg (List.mem_cons_of_mem g hgg)) g' hmem

theorem shape_transfer (l l' : List (Goal α)) (h : List.Forall₂ ScoringShape l l')
    (hp : ∀ g ∈ l, (1 : α) ≤ g.scoring_time ∧ (g.time_owned : α) < g.scoring_time) :
    ∀ g' ∈ l', (1 : α) ≤ g'.scoring_time ∧ (g'.time_owned : α) < g'.scoring_time := by
  induction h with
  | nil => simp
  | @cons a b l₁ l₂ hrel hrest ih =>
    intro g' hg'
    rcases List.mem_cons.mp hg' with rfl | hmem
    · obtain ⟨_, ht, hs⟩ := hrel
      rw [hs, ht]
      exact hp a (List.mem_cons_self a l₁)
    · exact ih (fun g hg => hp g (List.mem_cons_of_mem a hg)) g' hmem

theorem reachable_invariant {goals : List (Goal α)} {scores : String → ℕ}
    (h : Reachable goals scores) :
    ∀ g ∈ goals, (1 : α) ≤ g.scoring_time ∧ (g.time_owned : α) < g.scoring_time := by
  induction h with
  | init goals scores h0 hst =>
    intro g hg
    refine ⟨hst g hg, ?_⟩
    rw [h0 g hg]
    simpa using lt_of_lt_of_le zero_lt_one (hst g hg)
  | step goals goals' scores camps fresh h hmove ih =>
    exact scoring_pass_inv goals' camps scores fresh (shape_transfer goals goals' hmove ih)

/-- C1: the scoring state machine.  Part one: processing one goal through
the camps list (with time_owned below scoring_time on entry, scoring time of
at least one tick) either leaves the score map and the goal position
unchanged, or, exactly once, increments the score of the owner of the
capturing camp by one and resets the goal (fresh random position, owner
none, time_owned zero); in both cases the resulting counter is again
strictly below scoring_time.  Part two: the direct scoring event: if the
first camp contains the goal, owns it, and the incremented counter reaches
scoring_time, the loop returns exactly the reset goal and the incremented
score.  Part three: in every state reachable by repeated ticks starting
from time_owned = 0, every goal has time_owned strictly below its
scoring_time, so the counter never exceeds the threshold before the reset. -/
theorem goal_scoring_claim (β : Type) [LinearOrderedField β] :
    (∀ (g : Goal β) (camps : List (Camp β)) (scores : String → ℕ) (fresh : Vec β),
      (1 : β) ≤ g.scoring_time → (g.time_owned : β) < g.scoring_time →
      (camps_loop g camps scores fresh).1.scoring_time = g.scoring_time ∧
      (((camps_loop g camps scores fresh).1.time_owned : β) < g.scoring_time) ∧
      (((camps_loop g camps scores fresh).2 = scores ∧
          (camps_loop g camps scores fresh).1.phys.position = g.phys.position) ∨
        (∃ c ∈ camps, (camps_loop g camps scores fresh).2 =
            Function.update scores c.owner (scores c.owner + 1) ∧
          (camps_loop g camps scores fresh).1 =
            ({g with phys := {g.phys with position := fresh}, owner := none, time_owned := 0} : Goal β)))) ∧
    (∀ (g : Goal β) (c : Camp β) (rest : List (Camp β)) (scores : String → ℕ)
      (fresh : Vec β), c.contains g.phys.position → g.owner = some c.owner →
      g.scoring_time ≤ ((g.time_owned + 1 : ℕ) : β) →
      camps_loop g (c :: rest) scores fresh =
        ({g with phys := {g.phys with position := fresh}, owner := none, time_owned := 0},
          Function.update scores c.owner (scores c.owner + 1))) ∧
    (∀ (goals : List (Goal β)) (scores : String → ℕ), Reachable goals scores →
      ∀ g ∈ goals, (g.time_owned : β) < g.scoring_time) := by
  refine ⟨camps_loop_spec, ?_, ?_⟩
  · intro g c rest scores fresh hcont howner hcap
    have htick1 : (g.camp_tick c).1 = ({g with time_owned := g.time_owned + 1} : Goal β) := by
      simp [Goal.camp_tick, hcont, howner]
    have htick2 : (g.camp_tick c).2 = true := by
      simp only [Goal.camp_tick, if_pos hcont, if_pos howner, decide_eq_true_eq]
      exact hcap
    simp [camps_loop, htick1, htick2, goal_scored]
  · intro goals scores h g hg
    exact (reachable_invariant h g hg).2

/-- Witness for C1 at rational concrete inputs: a goal with scoring time 5
and counter 0 in the single camp that contains and owns it; the scoring
event of part two fires after the counter would reach 5, and the reachable
state invariant holds for the initial singleton state. -/
theorem goal_scoring_claim_witness :
    ((1 : ℚ) ≤ 5 ∧ (((0 : ℕ) : ℚ) < 5) ∧
      (camps_loop (⟨⟨"g", ⟨0, 0⟩, ⟨0, 0⟩, ⟨0, 0⟩, 1, 1, 0⟩, none, 0, 5, 0⟩ : Goal ℚ) []
          (fun _ => 0) ⟨1, 1⟩).1.scoring_time = (5 : ℚ) ∧
      (((camps_loop (⟨⟨"g", ⟨0, 0⟩, ⟨0, 0⟩, ⟨0, 0⟩, 1, 1, 0⟩, none, 0, 5, 0⟩ : Goal ℚ) []
          (fun _ => 0) ⟨1, 1⟩).1.time_owned : ℚ) < 5)) ∧
    (camps_loop (⟨⟨"g", ⟨5, 5⟩, ⟨0, 0⟩, ⟨0, 0⟩, 1, 1, 0⟩, some "A", 4, 5, 0⟩ : Goal ℚ)
        [⟨"c", "A", ⟨5, 5⟩, 4, 4⟩] (fun _ => 0) ⟨1, 1⟩ =
      ((⟨⟨"g", ⟨1, 1⟩, ⟨0, 0⟩, ⟨0, 0⟩, 1, 1, 0⟩, none, 0, 5, 0⟩ : Goal ℚ),
        Function.update (fun _ => (0 : ℕ)) "A" 1)) ∧
    (((⟨⟨"g", ⟨0, 0⟩, ⟨0, 0⟩, ⟨0, 0⟩, 1, 1, 0⟩, none, 0, 5, 0⟩ : Goal ℚ).time_owned : ℚ) <
      (⟨⟨"g", ⟨0, 0⟩, ⟨0, 0⟩, ⟨0, 0⟩, 1, 1, 0⟩, none, 0, 5, 0⟩ : Goal ℚ).scoring_time) := by
  have h15 : (1 : ℚ) ≤ 5 := by decide
  have h05 : (((0 : ℕ) : ℚ)) < 5 := by simp
  have hcont : (⟨"c", "A", ⟨5, 5⟩, 4, 4⟩ : Camp ℚ).contains
      (⟨⟨"g", ⟨5, 5⟩, ⟨0, 0⟩, ⟨0, 0⟩, 1, 1, 0⟩, some "A", 4, 5, 0⟩ : Goal ℚ).phys.position := by
    constructor <;> simp [Vec.sub_def]
  have hcap : (⟨⟨"g", ⟨5, 5⟩, ⟨0, 0⟩, ⟨0, 0⟩, 1, 1, 0⟩, some "A", 4, 5, 0⟩ :
      Goal ℚ).scoring_time ≤
      (((⟨⟨"g", ⟨5, 5⟩, ⟨0, 0⟩, ⟨0, 0⟩, 1, 1, 0⟩, some "A", 4, 5, 0⟩ :
        Goal ℚ).time_owned + 1 : ℕ) : ℚ) := by
    decide
  have hpart1 := (goal_scoring_claim ℚ).1
    (⟨⟨"g", ⟨0, 0⟩, ⟨0, 0⟩, ⟨0, 0⟩, 1, 1, 0⟩, none, 0, 5, 0⟩ : Goal ℚ) []
    (fun _ => 0) ⟨1, 1⟩ h15 h05
  have hpart2 := (goal_scoring_claim ℚ).2.1
    (⟨⟨"g", ⟨5, 5⟩, ⟨0, 0⟩, ⟨0, 0⟩, 1, 1, 0⟩, some "A", 4, 5, 0⟩ : Goal ℚ)
    ⟨"c", "A", ⟨5, 5⟩, 4, 4⟩ [] (fun _ => 0) ⟨1, 1⟩ hcont rfl hcap
  have hpart3 := (goal_scoring_claim ℚ).2.2
    [⟨⟨"g", ⟨0, 0⟩, ⟨0, 0⟩, ⟨0, 0⟩, 1, 1, 0⟩, none, 0, 5, 0⟩] (fun _ => 0)
    (Reachable.init _ _ (by simp) (by simp [h15]))
    (⟨⟨"g", ⟨0, 0⟩, ⟨0, 0⟩, ⟨0, 0⟩, 1, 1, 0⟩, none, 0, 5, 0⟩ : Goal ℚ)
    (List.mem_singleton.mpr rfl)
  exact ⟨⟨h15, h05, hpart1.1, hpart1.2.1⟩, hpart2, hpart3⟩

/-! Collision pass of tick, from seekers/game/game_logic.py (claim C3). -/

/-- An element of the physicals list: physicals = seekers + goals. -/
inductive Entity where
  | seeker : Seeker ℝ → Entity
  | goal : Goal ℝ → Entity

/-- The Physical part of an entity (attribute access on the Python objects). -/
def Entity.physical : Entity → Physical ℝ
  | .seeker s => s.phys
  | .goal g => g.phys

def Entity.position (e : Entity) : Vec ℝ := e.physical.position

def Entity.radius (e : Entity) : ℝ := e.physical.radius

/-- The dispatch inside the collision pass: Seeker.collision when both
entities are seekers (isinstance checks), otherwise Physical.collision. -/
noncomputable def resolve_pair (e1 e2 : Entity) (w : World ℝ) : Entity × Entity :=
  match e1, e2 with
  | .seeker s1, .seeker s2 =>
    let r := Seeker.collision s1 s2 w
    (.seeker r.1, .seeker r.2)
  | .seeker s1, .goal g2 =>
    let r := Physical.collision s1.phys g2.phys w
    (.seeker {s1 with phys := r.1}, .goal {g2 with phys := r.2})
  | .goal g1, .seeker s2 =>
    let r := Physical.collision g1.phys s2.phys w
    (.goal {g1 with phys := r.1}, .seeker {s2 with phys := r.2})
  | .goal g1, .goal g2 =>
    let r := Physical.collision g1.phys g2.phys w
    (.goal {g1 with phys := r.1}, .goal {g2 with phys := r.2})

/-- The body of the inner collision loop for one index pair (i, j): test
whether the squared toroidal distance of the two entities (evaluated on the
current state) is below the squared sum of radii, and if so resolve the
pair, writing both updated entities back in place. -/
noncomputable def collide_step (w : World ℝ) (ps : List Entity) (ij : ℕ × ℕ) : List Entity :=
  if h : ij.1 < ps.length ∧ ij.2 < ps.length then
    let phys1 := ps.get ⟨ij.1, h.1⟩
    let phys2 := ps.get ⟨ij.2, h.2⟩
    let d := (w.torus_difference phys2.position phys1.position).squared_length
    let min_dist := phys1.radius + phys2.radius
    if d < min_dist ^ 2 then
      let r := resolve_pair phys1 phys2 w
      (ps.set ij.1 r.1).set ij.2 r.2
    else ps
  else ps

/-- The inner while loop of the collision pass: j from i + 1 while j < n. -/
noncomputable def collide_inner (w : World ℝ) (n i : ℕ) (j : ℕ) (ps : List Entity) :
    List Entity :=
  if h : j < n then collide_inner w n i (j + 1) (collide_step w ps (i, j)) else ps
termination_by n - j
decreasing_by omega

/-- The outer for loop of the collision pass: i over all indices, inner loop
from i + 1. -/
noncomputable def collide_outer (w : World ℝ) (n : ℕ) (i : ℕ) (ps : List Entity) :
    List Entity :=
  if h : i < n then collide_outer w n (i + 1) (collide_inner w n i (i + 1) ps) else ps
termination_by n - i
decreasing_by omega

/-- The collision pass of tick in seekers/game/game_logic.py: the entity
list is all seekers followed by all goals, and the nested loops run over
index pairs (i, j) with i < j. -/
noncomputable def collision_pass (w : World ℝ) (seekers : List (Seeker ℝ))
    (goals : List (Goal ℝ)) : List Entity :=
  let physicals := seekers.map Entity.seeker ++ goals.map Entity.goal
  collide_outer w physicals.length 0 physicals

/-- All index pairs (i, j) with i < j < n, in lexicographic order. -/
def index_pairs (n : ℕ) : List (ℕ × ℕ) :=
  (List.range n).flatMap fun i => (List.range' (i + 1) (n - (i + 1))).map fun j => (i, j)

/-- Strict lexicographic order on index pairs. -/
def pair_lt (p q : ℕ × ℕ) : Prop := p.1 < q.1 ∨ (p.1 = q.1 ∧ p.2 < q.2)

theorem collide_inner_eq (w : World ℝ) (n i : ℕ) :
    ∀ (k j : ℕ) (ps : List Entity), n - j = k →
      collide_inner w n i j ps =
        ((List.range' j k).map fun jj => (i, jj)).foldl (collide_step w) ps := by
  intro k
  induction k with
  | zero =>
    intro j ps hk
    rw [collide_inner, dif_neg (by omega)]
    simp
  | succ k ih =>
    intro j ps hk
    have hj : j < n := by omega
    rw [collide_inner, dif_pos hj, ih (j + 1) (collide_step w ps (i, j)) (by omega),
      List.range'_succ]
    simp

theorem collide_outer_eq (w : World ℝ) (n : ℕ) :
    ∀ (k i : ℕ) (ps : List Entity), n - i = k →
      collide_outer w n i ps =
        ((List.range' i k).flatMap fun ii =>
            (List.range' (ii + 1) (n - (ii + 1))).map fun jj => (ii, jj)).foldl
          (collide_step w) ps := by
  intro k
  induction k with
  | zero =>
    intro i ps hk
    rw [collide_outer, dif_neg (by omega)]
    simp
  | succ k ih =>
    intro i ps hk
    have hi : i < n := by omega
    rw [collide_outer, dif_pos hi, ih (i + 1) (collide_inner w n i (i + 1) ps) (by omega),
      collide_inner_eq w n i (n - (i + 1)) (i + 1) ps rfl, List.range'_succ]
    simp [List.foldl_append]

theorem collision_pass_eq_foldl (w : World ℝ) (seekers : List (Seeker ℝ))
    (goals : List (Goal ℝ)) :
    collision_pass w seekers goals =
      (index_pairs (seekers.map Entity.seeker ++ goals.map Entity.goal).length).foldl
        (collide_step w) (seekers.map Entity.seeker ++ goals.map Entity.goal) := by
  unfold collision_pass index_pairs
  rw [List.range_eq_range']
  exact collide_outer_eq w _ _ 0 _ (by omega)

theorem index_pairs_mem (n i j : ℕ) : (i, j) ∈ index_pairs n ↔ i < j ∧ j < n := by
  unfold index_pairs
  simp only [List.mem_flatMap, List.mem_map, List.mem_range, List.mem_range'_1, Prod.mk.injEq]
  constructor
  · rintro ⟨a, ha, b, ⟨hb1, hb2⟩, rfl, rfl⟩
    omega
  · intro h
    exact ⟨i, by omega, j, ⟨by omega, by omega⟩, rfl, rfl⟩

theorem index_pairs_sorted (n : ℕ) : List.Pairwise pair_lt (index_pairs n) := by
  unfold index_pairs
  rw [List.pairwise_flatMap]
  constructor
  · intro a _
    rw [List.pairwise_map]
    exact (List.pairwise_lt_range' _ _ 1 (by omega)).imp fun h => Or.inr ⟨rfl, h⟩
  · have := List.pairwise_lt_range n
    refine this.imp ?_
    intro a b hab
    intro x hx y hy
    rw [List.mem_map] at hx hy
    obtain ⟨xa, _, rfl⟩ := hx
    obtain ⟨ya, _, rfl⟩ := hy
    exact Or.inl hab

theorem index_pairs_nodup (n : ℕ) : (index_pairs n).Nodup := by
  refine (index_pairs_sorted n).imp ?_
  intro p q h
  rintro rfl
  rcases h with h | ⟨_, h⟩ <;> exact absurd h (lt_irrefl _)

/-- C3: the collision pass of tick is exactly the left fold of the single
pair step (which resolves a pair exactly when its squared toroidal distance,
evaluated at that moment, is below the squared sum of radii) over the list
of index pairs of the concatenated entity list (all seekers followed by all
goals); that pair list contains every pair (i, j) with i < j exactly once
(it has no duplicates), in increasing lexicographic index order. -/
theorem collision_pass_index_pairs (w : World ℝ) (seekers : List (Seeker ℝ))
    (goals : List (Goal ℝ)) :
    collision_pass w seekers goals =
      (index_pairs (seekers.map Entity.seeker ++ goals.map Entity.goal).length).foldl
        (collide_step w) (seekers.map Entity.seeker ++ goals.map Entity.goal) ∧
    (∀ i j : ℕ,
      (i, j) ∈ index_pairs (seekers.map Entity.seeker ++ goals.map Entity.goal).length ↔
        i < j ∧ j < (seekers.map Entity.seeker ++ goals.map Entity.goal).length) ∧
    List.Pairwise pair_lt
      (index_pairs (seekers.map Entity.seeker ++ goals.map Entity.goal).length) ∧
    (index_pairs (seekers.map Entity.seeker ++ goals.map Entity.goal).length).Nodup :=
  ⟨collision_pass_eq_foldl w seekers goals, fun i j => index_pairs_mem _ i j,
    index_pairs_sorted _, index_pairs_nodup _⟩

/-! AI output validation, from seekers/game/player.py
(LocalPlayer.process_ai_output and LocalPlayer.poll_ai, claim C5). -/

/-- A Python value in a number position: float() either converts it, raises
ValueError (for example a non numeric string), or raises TypeError (for
example a list). -/
inductive PyNum where
  | num : ℚ → PyNum
  | badValue : PyNum
  | badType : PyNum
deriving DecidableEq, Repr

def PyNum.isNum : PyNum → Bool
  | .num _ => true
  | _ => false

/-- The shape of one element of the AI output list that the checks in
process_ai_output inspect. -/
structure AiSeekerElem where
  isSeeker : Bool
  id : String
  targetIsVector : Bool
  targetX : PyNum
  targetY : PyNum
  magnetIsMagnet : Bool
  magnetStrength : PyNum
deriving DecidableEq, Repr

/-- The decision callback result: either not a list at all, or a list. -/
inductive AiOutput where
  | notList : AiOutput
  | list : List AiSeekerElem → AiOutput

/-- The command state of one owned seeker (target vector and magnet
strength), the only authoritative state process_ai_output writes. -/
structure OwnSeeker where
  targetX : ℚ
  targetY : ℚ
  magnetStrength : ℚ
deriving DecidableEq, Repr

/-- The player seekers dict: an ordered association list id to seeker. -/
def lookupSeeker : List (String × OwnSeeker) → String → Option OwnSeeker
  | [], _ => none
  | (k2, v) :: rest, k => if k2 = k then some v else lookupSeeker rest k

/-- In place mutation of the seeker object with the given id. -/
def storeSeeker (l : List (String × OwnSeeker)) (k : String) (v : OwnSeeker) :
    List (String × OwnSeeker) :=
  l.map fun p => if p.1 = k then (p.1, v) else p

/-- The Python exception classes that can leave process_ai_output:
InvalidAiOutputError (raised by the validation), KeyError (a missing dict
key: the code catches IndexError around the dict lookup, so KeyError
escapes), TypeError (float() on a value of a non convertible type; the code
catches only ValueError). -/
inductive PyErr where
  | invalidAiOutput
  | keyError
  | typeError
deriving DecidableEq, Repr

/-- The per element body of the loop in process_ai_output, in source order:
dict lookup (KeyError escapes, the except IndexError does not match), the
three isinstance checks (InvalidAiOutputError), the assignment of
target.x = float(...), then target.y = float(...), then
magnet.strength = float(...) with the Magnet range check [-8, 1]; each
float() ValueError becomes InvalidAiOutputError, a TypeError escapes, and
every assignment already performed is kept. -/
def applyElem (st : List (String × OwnSeeker)) (e : AiSeekerElem) :
    List (String × OwnSeeker) × Option PyErr :=
  match lookupSeeker st e.id with
  | none => (st, some .keyError)
  | some own =>
    if e.isSeeker = false then (st, some .invalidAiOutput)
    else if e.targetIsVector = false then (st, some .invalidAiOutput)
    else if e.magnetIsMagnet = false then (st, some .invalidAiOutput)
    else
      match e.targetX with
      | .badValue => (st, some .invalidAiOutput)
      | .badType => (st, some .typeError)
      | .num qx =>
        let st1 := storeSeeker st e.id {own with targetX := qx}
        match e.targetY with
        | .badValue => (st1, some .invalidAiOutput)
        | .badType => (st1, some .typeError)
        | .num qy =>
          let st2 := storeSeeker st1 e.id {own with targetX := qx, targetY := qy}
          match e.magnetStrength with
          | .badValue => (st2, some .invalidAiOutput)
          | .badType => (st2, some .typeError)
          | .num ms =>
            if -8 ≤ ms ∧ ms ≤ 1 then
              (storeSeeker st2 e.id ⟨qx, qy, ms⟩, none)
            else (st2, some .invalidAiOutput)

/-- The for loop of process_ai_output: stop at the first raised exception,
keeping all mutations already performed. -/
def processList (st : List (String × OwnSeeker)) :
    List AiSeekerElem → List (String × OwnSeeker) × Option PyErr
  | [] => (st, none)
  | e :: rest =>
    let r := applyElem st e
    match r.2 with
    | some err => (r.1, some err)
    | none => processList r.1 rest

/-- LocalPlayer.process_ai_output: reject a non list, reject a wrong length
list, then run the per element loop. -/
def process_ai_output (st : List (String × OwnSeeker)) (out : AiOutput) :
    List (String × OwnSeeker) × Option PyErr :=
  match out with
  | .notList => (st, some .invalidAiOutput)
  | .list elems =>
    if elems.length ≠ st.length then (st, some .invalidAiOutput)
    else processList st elems

/-- LocalPlayer.poll_ai: call process_ai_output and catch (and log) only
InvalidAiOutputError; the middle component is whether an
InvalidAiOutputError was caught and logged, the last component is the
exception that propagates out of poll_ai (KeyError or TypeError). -/
def poll_ai (st : List (String × OwnSeeker)) (out : AiOutput) :
    List (String × OwnSeeker) × Bool × Option PyErr :=
  let r := process_ai_output st out
  match r.2 with
  | some .invalidAiOutput => (r.1, true, none)
  | some e => (r.1, false, some e)
  | none => (r.1, false, none)

/-- The value converts with float() and lies in the magnet range [-8, 1]. -/
def PyNum.inRange : PyNum → Prop
  | .num ms => -8 ≤ ms ∧ ms ≤ 1
  | _ => False

instance (p : PyNum) : Decidable p.inRange := by
  cases p <;> unfold PyNum.inRange <;> infer_instance

/-- Every element of the prefix applies without raising: the checks pass and
the numbers convert and the magnet strength is in range. -/
def ElemClean (e : AiSeekerElem) : Prop :=
  e.isSeeker = true ∧ e.targetIsVector = true ∧ e.magnetIsMagnet = true ∧
  e.targetX.isNum = true ∧ e.targetY.isNum = true ∧ e.magnetStrength.inRange

instance (e : AiSeekerElem) : Decidable (ElemClean e) := by
  unfold ElemClean; infer_instance

/-- The cumulative state after applying a list of elements. -/
def apply_all (st : List (String × OwnSeeker)) (elems : List AiSeekerElem) :
    List (String × OwnSeeker) :=
  elems.foldl (fun s e => (applyElem s e).1) st

theorem lookup_store_isSome (l : List (String × OwnSeeker)) (k : String) (v : OwnSeeker)
    (k2 : String) :
    (lookupSeeker (storeSeeker l k v) k2).isSome = (lookupSeeker l k2).isSome := by
  induction l with
  | nil => rfl
  | cons p rest ih =>
    obtain ⟨k1, v1⟩ := p
    have hmap : storeSeeker ((k1, v1) :: rest) k v =
        (if k1 = k then (k1, v) else (k1, v1)) :: storeSeeker rest k v := by
      simp only [storeSeeker, List.map_cons]
    rw [hmap]
    by_cases h1 : k1 = k
    · rw [if_pos h1]
      by_cases h2 : k1 = k2
      · simp [lookupSeeker, h2]
      · simp [lookupSeeker, h2, ih]
    · rw [if_neg h1]
      by_cases h2 : k1 = k2
      · simp [lookupSeeker, h2]
      · simp [lookupSeeker, h2, ih]

theorem apply_elem_keys (st : List (String × OwnSeeker)) (e : AiSeekerElem) (k : String) :
    (lookupSeeker (applyElem st e).1 k).isSome = (lookupSeeker st k).isSome := by
  unfold applyElem
  cases hlk : lookupSeeker st e.id with
  | none => rfl
  | some own =>
    by_cases h1 : e.isSeeker = false
    · simp [h1]
    · by_cases h2 : e.targetIsVector = false
      · simp [h1, h2]
      · by_cases h3 : e.magnetIsMagnet = false
        · simp [h1, h2, h3]
        · cases e.targetX with
          | badValue => simp [h1, h2, h3]
          | badType => simp [h1, h2, h3]
          | num qx =>
            cases e.targetY with
            | badValue => simp [h1, h2, h3, lookup_store_isSome]
            | badType => simp [h1, h2, h3, lookup_store_isSome]
            | num qy =>
              cases e.magnetStrength with
              | badValue => simp [h1, h2, h3, lookup_store_isSome]
              | badType => simp [h1, h2, h3, lookup_store_isSome]
              | num ms =>
                by_cases h4 : -8 ≤ ms ∧ ms ≤ 1 <;>
                  simp [h1, h2, h3, h4, lookup_store_isSome]

theorem apply_elem_clean (st : List (String × OwnSeeker)) (e : AiSeekerElem)
    (hc : ElemClean e) (hk : (lookupSeeker st e.id).isSome = true) :
    (applyElem st e).2 = none := by
  obtain ⟨h1, h2, h3, h4, h5, h6⟩ := hc
  unfold applyElem
  cases hlk : lookupSeeker st e.id with
  | none => rw [hlk] at hk; simp at hk
  | some own =>
    cases hx : e.targetX with
    | badValue => rw [hx] at h4; simp [PyNum.isNum] at h4
    | badType => rw [hx] at h4; simp [PyNum.isNum] at h4
    | num qx =>
      cases hy : e.targetY with
      | badValue => rw [hy] at h5; simp [PyNum.isNum] at h5
      | badType => rw [hy] at h5; simp [PyNum.isNum] at h5
      | num qy =>
        cases hm : e.magnetStrength with
        | badValue => rw [hm] at h6; simp [PyNum.inRange] at h6
        | badType => rw [hm] at h6; simp [PyNum.inRange] at h6
        | num ms =>
          rw [hm] at h6
          simp only [PyNum.inRange] at h6
          simp [h1, h2, h3, hx, hy, hm, h6]

theorem processList_clean_front (good : List AiSeekerElem) :
    ∀ (st : List (String × OwnSeeker)) (xs : List AiSeekerElem),
      (∀ e ∈ good, ElemClean e ∧ (lookupSeeker st e.id).isSome = true) →
      processList st (good ++ xs) = processList (apply_all st good) xs := by
  induction good with
  | nil => intro st xs _; rfl
  | cons e good' ih =>
    intro st xs hgood
    have he := hgood e (List.mem_cons_self e good')
    have herr : (applyElem st e).2 = none := apply_elem_clean st e he.1 he.2
    have hstep : processList st ((e :: good') ++ xs) =
        processList (applyElem st e).1 (good' ++ xs) := by
      simp [processList, herr]
    rw [hstep, ih (applyElem st e).1 xs ?_]
    · rfl
    · intro e2 he2
      refine ⟨(hgood e2 (List.mem_cons_of_mem e he2)).1, ?_⟩
      rw [apply_elem_keys]
      exact (hgood e2 (List.mem_cons_of_mem e he2)).2

theorem apply_all_keys (good : List AiSeekerElem) :
    ∀ (st : List (String × OwnSeeker)) (k : String),
      (lookupSeeker (apply_all st good) k).isSome = (lookupSeeker st k).isSome := by
  induction good with
  | nil => intro st k; rfl
  | cons e good' ih =>
    intro st k
    have : apply_all st (e :: good') = apply_all (applyElem st e).1 good' := rfl
    rw [this, ih, apply_elem_keys]

/-- C5 corrected: how poll_ai really treats invalid decision outputs.  A non
list output and a wrong length list are rejected wholesale: the typed
InvalidAiOutputError is caught and logged and no seeker changes.  But a
foreign seeker id raises KeyError (the code catches IndexError around a
dict lookup), which poll_ai does not catch, so it propagates; and element
level violations abort the loop only after all earlier elements (and even
the x component of the offending target) have already been applied, so the
previous targets do not all persist. -/
theorem poll_ai_validation :
    (∀ st, poll_ai st .notList = (st, true, none)) ∧
    (∀ st elems, elems.length ≠ st.length → poll_ai st (.list elems) = (st, true, none)) ∧
    (∀ st (good : List AiSeekerElem) bad rest,
      (good ++ bad :: rest).length = st.length →
      (∀ e ∈ good, ElemClean e ∧ (lookupSeeker st e.id).isSome = true) →
      (lookupSeeker st bad.id).isSome = false →
      poll_ai st (.list (good ++ bad :: rest)) =
        (apply_all st good, false, some .keyError)) ∧
    (∀ st (good : List AiSeekerElem) bad rest own qx,
      (good ++ bad :: rest).length = st.length →
      (∀ e ∈ good, ElemClean e ∧ (lookupSeeker st e.id).isSome = true) →
      bad.isSeeker = true → bad.targetIsVector = true → bad.magnetIsMagnet = true →
      bad.targetX = .num qx → bad.targetY = .badValue →
      lookupSeeker (apply_all st good) bad.id = some own →
      poll_ai st (.list (good ++ bad :: rest)) =
        (storeSeeker (apply_all st good) bad.id {own with targetX := qx}, true, none)) := by
  refine ⟨fun st => rfl, ?_, ?_, ?_⟩
  · intro st elems hlen
    simp [poll_ai, process_ai_output, hlen]
  · intro st good bad rest hlen hgood hbad
    have hA : lookupSeeker (apply_all st good) bad.id = none := by
      have hk := apply_all_keys good st bad.id
      rw [hbad] at hk
      cases h : lookupSeeker (apply_all st good) bad.id with
      | none => rfl
      | some v => rw [h] at hk; simp at hk
    have hproc : processList st (good ++ bad :: rest) =
        (apply_all st good, some .keyError) := by
      rw [processList_clean_front good st (bad :: rest) hgood]
      simp [processList, applyElem, hA]
    simp [poll_ai, process_ai_output, hlen, hproc]
  · intro st good bad rest own qx hlen hgood h1 h2 h3 hx hy hown
    have hproc : processList st (good ++ bad :: rest) =
        (storeSeeker (apply_all st good) bad.id {own with targetX := qx},
          some .invalidAiOutput) := by
      rw [processList_clean_front good st (bad :: rest) hgood]
      simp [processList, applyElem, hown, h1, h2, h3, hx, hy]
    simp [poll_ai, process_ai_output, hlen, hproc]

/-- C5 counterexample: with two owned seekers s1 and s2 at default targets,
an output list of correct length whose first element names the foreign id
zz makes poll_ai propagate a KeyError (it is neither converted to
InvalidAiOutputError nor caught and logged), contradicting the claim that
every such output is rejected via a caught and logged typed error. -/
theorem poll_ai_counterexample :
    (poll_ai [("s1", ⟨0, 0, 0⟩), ("s2", ⟨0, 0, 0⟩)]
        (.list [⟨true, "zz", true, .num 1, .num 2, true, .num 0⟩,
          ⟨true, "s2", true, .num 3, .num 4, true, .num 0⟩])).2.2 =
      some PyErr.keyError ∧
    (poll_ai [("s1", ⟨0, 0, 0⟩), ("s2", ⟨0, 0, 0⟩)]
        (.list [⟨true, "zz", true, .num 1, .num 2, true, .num 0⟩,
          ⟨true, "s2", true, .num 3, .num 4, true, .num 0⟩])).2.1 = false := by
  constructor <;> rfl

/-- Witness for the corrected C5 statement: all four behaviours at concrete
states. -/
theorem poll_ai_validation_witness :
    (poll_ai [("s1", (⟨0, 0, 0⟩ : OwnSeeker)), ("s2", ⟨0, 0, 0⟩)] .notList =
      ([("s1", ⟨0, 0, 0⟩), ("s2", ⟨0, 0, 0⟩)], true, none)) ∧
    (poll_ai [("s1", (⟨0, 0, 0⟩ : OwnSeeker)), ("s2", ⟨0, 0, 0⟩)] (.list []) =
      ([("s1", ⟨0, 0, 0⟩), ("s2", ⟨0, 0, 0⟩)], true, none)) ∧
    (poll_ai [("s1", (⟨0, 0, 0⟩ : OwnSeeker)), ("s2", ⟨0, 0, 0⟩)]
        (.list [⟨true, "s1", true, .num 7, .num 8, true, .num 1⟩,
          ⟨true, "zz", true, .num 1, .num 1, true, .num 0⟩]) =
      (apply_all [("s1", ⟨0, 0, 0⟩), ("s2", ⟨0, 0, 0⟩)]
          [⟨true, "s1", true, .num 7, .num 8, true, .num 1⟩],
        false, some .keyError)) ∧
    (poll_ai [("s1", (⟨0, 0, 0⟩ : OwnSeeker)), ("s2", ⟨0, 0, 0⟩)]
        (.list [⟨true, "s1", true, .num 7, .badValue, true, .num 0⟩,
          ⟨true, "s2", true, .num 1, .num 1, true, .num 0⟩]) =
      (storeSeeker [("s1", ⟨0, 0, 0⟩), ("s2", ⟨0, 0, 0⟩)] "s1" ⟨7, 0, 0⟩,
        true, none)) :=
  ⟨poll_ai_validation.1 [("s1", ⟨0, 0, 0⟩), ("s2", ⟨0, 0, 0⟩)],
    poll_ai_validation.2.1 [("s1", ⟨0, 0, 0⟩), ("s2", ⟨0, 0, 0⟩)] [] (by decide),
    poll_ai_validation.2.2.1 [("s1", ⟨0, 0, 0⟩), ("s2", ⟨0, 0, 0⟩)]
      [⟨true, "s1", true, .num 7, .num 8, true, .num 1⟩]
      ⟨true, "zz", true, .num 1, .num 1, true, .num 0⟩ [] (by decide) (by decide) (by decide),
    poll_ai_validation.2.2.2 [("s1", ⟨0, 0, 0⟩), ("s2", ⟨0, 0, 0⟩)] []
      ⟨true, "s1", true, .num 7, .badValue, true, .num 0⟩
      [⟨true, "s2", true, .num 1, .num 1, true, .num 0⟩] ⟨0, 0, 0⟩ 7
      (by decide) (by decide) rfl rfl rfl rfl rfl (by decide)⟩

/-! Join handling, from seekers/game.py (SeekersGame.add_player) and
seekers/net/server.py (GrpcSeekersServicer.Join and join_game), claim C9. -/

/-- The game state inspected by add_player: whether camps are already
assigned (the game has started), the current player names, and the
configured player capacity (config.global_players). -/
structure ServerGame where
  campsAssigned : Bool
  players : List String
  capacity : ℕ
deriving DecidableEq, Repr

/-- SeekersGame.add_player from seekers/game.py: raises GameFullError (the
value carries the message) both when the game is already running (camps
assigned) and when the player capacity is reached; otherwise the player is
added. -/
def add_player (g : ServerGame) (p : String) : Except String ServerGame :=
  if g.campsAssigned then .error "Game must not be running to add a player."
  else if g.players.length ≥ g.capacity then
    .error "Game full. Cannot add more players."
  else .ok {g with players := g.players ++ [p]}

/-- The visible outcome of the Join RPC in seekers/net/server.py. -/
inductive JoinResult where
  | joined : String → JoinResult
  | resourceExhausted : JoinResult
  | invalidArgument : JoinResult
deriving DecidableEq, Repr

/-- The name dedup loop of join_game: while the candidate name is taken,
append the next counter suffix.  Candidates with distinct counters are
distinct, so the fuel (one more than the number of players) never runs out
on real inputs; it only makes the recursion structural. -/
def dedup_loop (taken : List String) (base cur : String) (i : ℕ) : ℕ → String
  | 0 => cur
  | fuel + 1 =>
    if cur ∈ taken then
      dedup_loop taken base (base ++ " (" ++ toString i ++ ")") (i + 1) fuel
    else cur

/-- join_game from seekers/net/server.py: dedup the requested name, then
add the player, mapping GameFullError to the RESOURCE_EXHAUSTED rejection. -/
def join_game (g : ServerGame) (name : String) : JoinResult :=
  let newName := dedup_loop g.players name name 2 (g.players.length + 1)
  match add_player g newName with
  | .error _ => .resourceExhausted
  | .ok _ => .joined newName

/-- Python str.strip(): remove leading and trailing whitespace (embedded
over the character list so that it evaluates by kernel reduction). -/
def pyStrip (s : String) : String :=
  ⟨((s.data.dropWhile Char.isWhitespace).reverse.dropWhile Char.isWhitespace).reverse⟩

/-- GrpcSeekersServicer.Join from seekers/net/server.py: a missing name
becomes Player with no emptiness check; otherwise the name is stripped and
an empty remainder is rejected with INVALID_ARGUMENT; then join_game. -/
def Join (g : ServerGame) (reqName : Option String) : JoinResult :=
  match reqName with
  | none => join_game g "Player"
  | some n =>
    if pyStrip n = "" then .invalidArgument
    else join_game g (pyStrip n)

/-- C9 counterexample: joining a game whose camps are already assigned (the
game has started) with free capacity is rejected with the same
RESOURCE_EXHAUSTED GameFull signal as a full game and not with the
InvalidArgument signal the claim requires, so the two rejection cases are
not distinguishable. -/
theorem join_counterexample :
    Join ⟨true, [], 2⟩ (some "Alice") = JoinResult.resourceExhausted ∧
    Join ⟨true, [], 2⟩ (some "Alice") ≠ JoinResult.invalidArgument := by
  constructor <;> decide

/-- C9 corrected: both the game-started case and the capacity-reached case
are rejected with the one GameFull signal (GameFullError mapped to
RESOURCE_EXHAUSTED); InvalidArgument is produced only for an empty or
whitespace requested name, never for a started game. -/
theorem join_rejections :
    (∀ (g : ServerGame) (n : String), g.campsAssigned = true → pyStrip n ≠ "" →
      Join g (some n) = .resourceExhausted) ∧
    (∀ (g : ServerGame) (n : String), g.campsAssigned = false →
      g.capacity ≤ g.players.length → pyStrip n ≠ "" →
      Join g (some n) = .resourceExhausted) ∧
    (∀ (g : ServerGame) (n : String), pyStrip n = "" →
      Join g (some n) = .invalidArgument) ∧
    (∀ g : ServerGame, g.campsAssigned = true → Join g none = .resourceExhausted) := by
  refine ⟨?_, ?_, ?_, ?_⟩
  · intro g n hstarted hne
    simp [Join, hne, join_game, add_player, hstarted]
  · intro g n hnot hfull hne
    simp [Join, hne, join_game, add_player, hnot, hfull]
  · intro g n he
    simp [Join, he]
  · intro g hstarted
    simp [Join, join_game, add_player, hstarted]

/-- Witness for the corrected C9 statement at concrete games: a started
game, a full game, an empty name, and a started game with a missing name. -/
theorem join_rejections_witness :
    (Join ⟨true, [], 2⟩ (some "Alice") = JoinResult.resourceExhausted) ∧
    (Join ⟨false, ["Bob", "Eve"], 2⟩ (some "Alice") = JoinResult.resourceExhausted) ∧
    (Join ⟨false, [], 2⟩ (some "  ") = JoinResult.invalidArgument) ∧
    (Join ⟨true, [], 2⟩ none = JoinResult.resourceExhausted) :=
  ⟨join_rejections.1 ⟨true, [], 2⟩ "Alice" rfl (by decide),
    join_rejections.2.1 ⟨false, ["Bob", "Eve"], 2⟩ "Alice" rfl (by decide) (by decide),
    join_rejections.2.2.1 ⟨false, [], 2⟩ "  " (by decide),
    join_rejections.2.2.2 ⟨true, [], 2⟩ rfl⟩

end Seekers
